import Mathlib

/-!
Verification of the background notification dispatcher
(`src/services/emailService.js`, the `Email` mongoose model, and the
email controller's batch reconciler) as a shallow embedding.

Time is abstracted as natural-number instants (epoch-style), document ids
as naturals, and the randomized delivery simulation as an explicit outcome
oracle `Nat → Bool` (step number ↦ simulated success).  Mongoose `save`
is modelled as pure record update (with `updatedAt` refreshed, as the
`timestamps: true` option does); `Date.now` values are threaded as
explicit `now` arguments.
-/

set_option maxRecDepth 40000

namespace EmailDispatcher

/-- `EMAIL_STATUS` values of the email schema. -/
inductive EmailStatus where
  | pending
  | processing
  | sent
  | failed
deriving DecidableEq, Repr

/-- The `priority` enum of the email schema: `['low', 'normal', 'high', 'urgent']`. -/
inductive Priority where
  | low
  | normal
  | high
  | urgent
deriving DecidableEq, Repr

/-- The string actually stored in the `priority` field of a document.
MongoDB sorts this field as a plain string (lexicographic byte order). -/
def priorityString : Priority → String
  | .low => "low"
  | .normal => "normal"
  | .high => "high"
  | .urgent => "urgent"

/-- The data object handed to `addToQueue` / `new Email(...)` by the
producer functions (`sendWelcomeEmail` and friends, `retryFailedEmail`).
The optional `attempts`/`maxAttempts` model fields that a caller might
include in the submitted object; `addToQueue` spreads the object and then
overwrites both, so they are ignored. -/
structure EmailData where
  toAddr : String  -- the JS field `to` (reserved token in Lean)
  subject : String
  content : String
  type : String
  recipient : Nat
  sender : Nat
  relatedTask : Option Nat
  priority : Priority
  attempts : Option Nat := none
  maxAttempts : Option Nat := none
deriving DecidableEq, Repr

/-- An in-memory job sitting in the transient queue (`emailQueue` entries). -/
structure Job where
  toAddr : String  -- the JS field `to` (reserved token in Lean)
  subject : String
  content : String
  type : String
  recipient : Nat
  sender : Nat
  relatedTask : Option Nat
  priority : Priority
  id : Nat
  addedAt : Nat
  attempts : Nat
  maxAttempts : Nat
deriving DecidableEq, Repr

/-- The element `addToQueue` pushes: `{...emailData, id, addedAt, attempts: 0,
maxAttempts: 3}`.  The spread puts the submitted fields first, so the literal
`attempts: 0` and `maxAttempts: 3` override anything in `emailData`. -/
def mkQueuedJob (d : EmailData) (id addedAt : Nat) : Job :=
  { toAddr := d.toAddr
    subject := d.subject
    content := d.content
    type := d.type
    recipient := d.recipient
    sender := d.sender
    relatedTask := d.relatedTask
    priority := d.priority
    id := id
    addedAt := addedAt
    attempts := 0
    maxAttempts := 3 }

/-- `addToQueue`: push one job onto the tail of the transient queue.
(The `processQueue` trigger at the end of the JS function is modelled
separately by `processQueue` below; the push itself is this append.) -/
def addToQueue (d : EmailData) (id addedAt : Nat) (q : List Job) : List Job :=
  q ++ [mkQueuedJob d id addedAt]

/-- A persisted `Email` document (the LedgerRecord).  `updatedAt` is the
mongoose `timestamps` field refreshed on every save. -/
structure LedgerRecord where
  id : Nat
  toAddr : String  -- the JS field `to` (reserved token in Lean)
  subject : String
  content : String
  type : String
  status : EmailStatus
  priority : Priority
  recipient : Nat
  sender : Nat
  relatedTask : Option Nat
  scheduledAt : Nat
  processedAt : Option Nat
  sentAt : Option Nat
  attempts : Nat
  maxAttempts : Nat
  errorMessage : Option String
  updatedAt : Nat
deriving DecidableEq, Repr

/-- The document produced by `new Email(emailData)` + `save()`: schema
defaults give `status = pending`, `scheduledAt = Date.now`, `attempts = 0`,
`maxAttempts = 3`, and the date/error fields unset. -/
def newLedgerRecord (d : EmailData) (id now : Nat) : LedgerRecord :=
  { id := id
    toAddr := d.toAddr
    subject := d.subject
    content := d.content
    type := d.type
    status := .pending
    priority := d.priority
    recipient := d.recipient
    sender := d.sender
    relatedTask := d.relatedTask
    scheduledAt := now
    processedAt := none
    sentAt := none
    attempts := 0
    maxAttempts := 3
    errorMessage := none
    updatedAt := now }

/-- `emailSchema.methods.markAsProcessing`: set status, stamp `processedAt`,
increment `attempts` (unconditionally — there is no guard), save. -/
def markAsProcessing (r : LedgerRecord) (now : Nat) : LedgerRecord :=
  { r with status := .processing, processedAt := some now,
           attempts := r.attempts + 1, updatedAt := now }

/-- `emailSchema.methods.markAsSent`: set status `sent`, stamp `sentAt`, save. -/
def markAsSent (r : LedgerRecord) (now : Nat) : LedgerRecord :=
  { r with status := .sent, sentAt := some now, updatedAt := now }

/-- `emailSchema.methods.markAsFailed`: set status `failed`, record the error
message, stamp `processedAt`, save. -/
def markAsFailed (r : LedgerRecord) (msg : String) (now : Nat) : LedgerRecord :=
  { r with status := .failed, errorMessage := some msg,
           processedAt := some now, updatedAt := now }

/-- `emailSchema.methods.retry`: if `attempts < maxAttempts`, reset status to
`pending` and clear the date/error fields (attempts are NOT reset); otherwise
throw `Maximum retry attempts exceeded`. -/
def LedgerRecord.retryRecord (r : LedgerRecord) (now : Nat) :
    Except String LedgerRecord :=
  if r.attempts < r.maxAttempts then
    .ok { r with status := .pending, processedAt := none, sentAt := none,
                 errorMessage := none, updatedAt := now }
  else
    .error "Maximum retry attempts exceeded"

/-- `emailSchema.methods.canRetry`: `status === 'failed' && attempts < maxAttempts`. -/
def canRetry (r : LedgerRecord) : Bool :=
  r.status == .failed && r.attempts < r.maxAttempts

/-! ### Ledger queries (`getPendingEmails`, `getFailedEmails`)

MongoDB compares the stored `priority` strings bytewise; these are ASCII
strings, so byte order coincides with lexicographic order on the
character lists. -/

/-- Ascending MongoDB string order (lexicographic on the character list). -/
def mongoStrLt (s t : String) : Prop := s.data < t.data

instance : DecidableRel mongoStrLt :=
  fun s t => inferInstanceAs (Decidable (s.data < t.data))

/-- Rank of each priority string in MongoDB's ascending string order:
`"high" < "low" < "normal" < "urgent"`. -/
def mongoRank : Priority → Nat
  | .high => 0
  | .low => 1
  | .normal => 2
  | .urgent => 3

/-- The comparison realised by `.sort({ priority: -1, scheduledAt: 1 })` on
the stored documents: priority string descending, then `scheduledAt`
ascending. -/
def pendingOrder (a b : LedgerRecord) : Prop :=
  mongoStrLt (priorityString b.priority) (priorityString a.priority) ∨
    (priorityString a.priority = priorityString b.priority ∧
      a.scheduledAt ≤ b.scheduledAt)

instance : DecidableRel pendingOrder :=
  fun a b =>
    inferInstanceAs (Decidable
      (mongoStrLt (priorityString b.priority) (priorityString a.priority) ∨
        (priorityString a.priority = priorityString b.priority ∧
          a.scheduledAt ≤ b.scheduledAt)))

/-- `emailSchema.statics.getPendingEmails`: documents with
`status = 'pending'` and `scheduledAt ≤ now`, sorted by
`{ priority: -1, scheduledAt: 1 }`, limited to `limit`. -/
def getPendingEmails (now limit : Nat) (ledger : List LedgerRecord) :
    List LedgerRecord :=
  ((ledger.filter fun r =>
      r.status == .pending && decide (r.scheduledAt ≤ now)).insertionSort
    pendingOrder).take limit

/-- The comparison realised by `.sort({ updatedAt: 1 })`. -/
def failedOrder (a b : LedgerRecord) : Prop := a.updatedAt ≤ b.updatedAt

instance : DecidableRel failedOrder :=
  fun a b => inferInstanceAs (Decidable (a.updatedAt ≤ b.updatedAt))

/-- `emailSchema.statics.getFailedEmails`: documents with
`status = 'failed'` and `attempts < maxAttempts` (the `$expr` comparison),
sorted by `updatedAt` ascending, limited to `limit`. -/
def getFailedEmails (limit : Nat) (ledger : List LedgerRecord) :
    List LedgerRecord :=
  ((ledger.filter fun r =>
      r.status == .failed && decide (r.attempts < r.maxAttempts)).insertionSort
    failedOrder).take limit

/-! ### Batch Reconciler (`simulateEmailProcessing` in the email controller) -/

/-- One iteration of the reconciler's loop body on a selected document:
`markAsProcessing`, simulated delivery, then `markAsSent` on success or
`markAsFailed('Simulated processing failure')` on failure. -/
def reconcileOne (success : Bool) (now : Nat) (r : LedgerRecord) :
    LedgerRecord :=
  let r1 := markAsProcessing r now
  if success then markAsSent r1 now
  else markAsFailed r1 "Simulated processing failure" now

/-- The reconciler's per-job outcome list over an already-selected batch,
resolved in list order (`step` indexes the outcome oracle). -/
def runBatch (outcomes : Nat → Bool) (now : Nat) :
    Nat → List LedgerRecord → List (Nat × EmailStatus)
  | _, [] => []
  | step, r :: rest =>
    (r.id, (reconcileOne (outcomes step) now r).status) ::
      runBatch outcomes now (step + 1) rest

/-- `simulateEmailProcessing`: select via `getPendingEmails batchSize` and
resolve each selected document in order. -/
def simulateEmailProcessing (outcomes : Nat → Bool) (now batchSize : Nat)
    (ledger : List LedgerRecord) : List (Nat × EmailStatus) :=
  runBatch outcomes now 0 (getPendingEmails now batchSize ledger)

/-! ### Transient Queue and Drain Loop (`processQueue`) -/

/-- Whole-dispatcher state: the in-memory `emailQueue`, the persisted
`Email` collection, and the `isProcessing` flag. -/
structure DispatcherState where
  queue : List Job
  ledger : List LedgerRecord
  isProcessing : Bool
deriving DecidableEq, Repr

/-- The retry mutation of the drain loop's catch block:
`emailJob.attempts++; emailJob.addedAt = new Date()`. -/
def bumpJob (j : Job) (now : Nat) : Job :=
  { j with attempts := j.attempts + 1, addedAt := now }

/-- One iteration of the `while (emailQueue.length > 0)` body, acting on the
queue alone (the body touches no `Email` document): `shift()` the head;
on success the head is simply gone; on failure re-`push` the bumped job at
the tail if `attempts < maxAttempts`, otherwise drop it. -/
def stepQueue (success : Bool) (now : Nat) (q : List Job) : List Job :=
  match q with
  | [] => []
  | j :: rest =>
    if success then rest
    else if j.attempts < j.maxAttempts then rest ++ [bumpJob j now] else rest

/-- The drain loop proper, with an explicit fuel bound on the number of
iterations (the termination theorem shows any fuel above `queueMeasure`
reaches the empty queue).  When the queue is empty the loop exits and
clears `isProcessing`.  The ledger component is carried through untouched,
exactly as in the source, where the loop body never references the `Email`
model. -/
def drainLoop (outcomes : Nat → Bool) :
    Nat → Nat → DispatcherState → DispatcherState
  | 0, _, st => st
  | fuel + 1, step, st =>
    match st.queue with
    | [] => { st with isProcessing := false }
    | _ :: _ =>
      drainLoop outcomes fuel (step + 1)
        { st with queue := stepQueue (outcomes step) step st.queue }

/-- `processQueue`: early-return if already processing or the queue is
empty; otherwise set `isProcessing` and run the drain loop. -/
def processQueue (outcomes : Nat → Bool) (fuel : Nat)
    (st : DispatcherState) : DispatcherState :=
  if st.isProcessing || st.queue.isEmpty then st
  else drainLoop outcomes fuel 0 { st with isProcessing := true }

/-- Termination measure of one job: how many more times it can be handed to
the simulated delivery (`maxAttempts - attempts` retries plus the current
hand-off). -/
def jobMeasure (j : Job) : Nat := j.maxAttempts - j.attempts + 1

/-- Termination measure of the whole queue. -/
def queueMeasure (q : List Job) : Nat := (q.map jobMeasure).sum

/-- Number of simulated deliveries (`processEmailJob` calls) a drain run
performs, for the attempt-budget accounting of the retry path. -/
def drainDeliveries (outcomes : Nat → Bool) :
    Nat → Nat → List Job → Nat
  | 0, _, _ => 0
  | fuel + 1, step, q =>
    match q with
    | [] => 0
    | _ :: _ =>
      drainDeliveries outcomes fuel (step + 1)
        (stepQueue (outcomes step) step q) + 1

/-! ### Producer path (`sendWelcomeEmail`) and operator retry -/

/-- The user object consumed by the welcome template. -/
structure UserInfo where
  id : Nat
  name : String
  email : String
  role : String
deriving DecidableEq, Repr

/-- `emailTemplates.welcome`: subject and body rendered from the user.
(The body keeps the interpolated fields; literal HTML whitespace and the
locale-dependent `createdAt` date line are not reproduced.) -/
def welcomeTemplate (u : UserInfo) : String × String :=
  ("Welcome to Task Workflow, " ++ u.name ++ "!",
   "<h2>Welcome to Task Workflow!</h2><p>Hi " ++ u.name ++ ",</p>" ++
     "<p>Welcome to our task management system. " ++
     "Your account has been successfully created.</p>" ++
     "<ul><li>Email: " ++ u.email ++ "</li><li>Role: " ++ u.role ++
     "</li></ul><p>You can now log in and start managing your tasks.</p>")

/-- The `emailData` object `sendWelcomeEmail` builds. -/
def welcomeEmailData (u : UserInfo) : EmailData :=
  { toAddr := u.email
    subject := (welcomeTemplate u).1
    content := (welcomeTemplate u).2
    type := "welcome"
    recipient := u.id
    sender := u.id
    relatedTask := none
    priority := .normal }

/-- `email.save()` at enqueue time, which may fail (persistence
unavailable); on success the collection gains the new document. -/
def saveEmail (saveFails : Bool) (r : LedgerRecord)
    (ledger : List LedgerRecord) : Except String (List LedgerRecord) :=
  if saveFails then .error "database error" else .ok (ledger ++ [r])

/-- `sendWelcomeEmail`: render, `addToQueue`, then try to save the ledger
document — a save failure is logged and swallowed (`catch` block), so the
function always returns normally. -/
def sendWelcomeEmail (u : UserInfo) (saveFails : Bool)
    (jobId recId now : Nat) (st : DispatcherState) :
    Except String DispatcherState :=
  let d := welcomeEmailData u
  let st1 := { st with queue := addToQueue d jobId now st.queue }
  match saveEmail saveFails (newLedgerRecord d recId now) st1.ledger with
  | .ok l => .ok { st1 with ledger := l }
  | .error _ => .ok st1

/-- `Email.findById`. -/
def findById (ledger : List LedgerRecord) (id : Nat) :
    Option LedgerRecord :=
  ledger.find? fun r => r.id == id

/-- Write an updated document back into the collection (the effect of
`save()` on an existing document). -/
def replaceById (r' : LedgerRecord) (ledger : List LedgerRecord) :
    List LedgerRecord :=
  ledger.map fun r => if r.id == r'.id then r' else r

/-- The `emailData` object `retryFailedEmail` rebuilds from the document. -/
def emailDataOf (email : LedgerRecord) : EmailData :=
  { toAddr := email.toAddr
    subject := email.subject
    content := email.content
    type := email.type
    recipient := email.recipient
    sender := email.sender
    relatedTask := email.relatedTask
    priority := email.priority }

/-- `retryFailedEmail`: look the document up; throw `Email not found` or
`Email cannot be retried` (both before any mutation); otherwise apply the
model's `retry()` and re-submit an equivalent job through `addToQueue`.
The returned state is unchanged on every error path. -/
def retryFailedEmail (st : DispatcherState) (emailId now jobId : Nat) :
    Except String LedgerRecord × DispatcherState :=
  match findById st.ledger emailId with
  | none => (.error "Email not found", st)
  | some email =>
    if canRetry email then
      match email.retryRecord now with
      | .ok email' =>
        (.ok email',
         { st with
             ledger := replaceById email' st.ledger
             queue := addToQueue (emailDataOf email) jobId now st.queue })
      | .error e => (.error e, st)
    else
      (.error "Email cannot be retried", st)

/-! ### Ledger operation sequences (for the attempts-bound invariant) -/

/-- The four mutating model methods as explicit operations. -/
inductive LedgerOp where
  | markProcessing (now : Nat)
  | markSent (now : Nat)
  | markFailed (msg : String) (now : Nat)
  | retryAction (now : Nat)
deriving DecidableEq, Repr

/-- Apply one operation; a `retry()` throw (attempts exhausted) leaves the
document unmutated. -/
def applyOp (r : LedgerRecord) : LedgerOp → LedgerRecord
  | .markProcessing now => markAsProcessing r now
  | .markSent now => markAsSent r now
  | .markFailed msg now => markAsFailed r msg now
  | .retryAction now =>
    match r.retryRecord now with
    | .ok r' => r'
    | .error _ => r

/-- Documents reachable from creation when `markAsProcessing` is only ever
applied to a `pending` document — which is how the code calls it: the
Batch Reconciler, its only caller, invokes it on documents returned by
`getPendingEmails` (all `pending`). -/
inductive GuardedReach : LedgerRecord → Prop where
  | init (d : EmailData) (id now : Nat) : GuardedReach (newLedgerRecord d id now)
  | processing {r : LedgerRecord} (now : Nat) :
      GuardedReach r → r.status = .pending →
      GuardedReach (markAsProcessing r now)
  | sent {r : LedgerRecord} (now : Nat) :
      GuardedReach r → GuardedReach (markAsSent r now)
  | failedStep {r : LedgerRecord} (msg : String) (now : Nat) :
      GuardedReach r → GuardedReach (markAsFailed r msg now)
  | retried {r r' : LedgerRecord} (now : Nat) :
      GuardedReach r → r.retryRecord now = .ok r' → GuardedReach r'

/-! ### Concrete demonstration inputs -/

/-- A concrete registered user (the §8 scenario's `alice@x.com`). -/
def demoUser : UserInfo :=
  { id := 1, name := "Alice", email := "alice@x.com", role := "member" }

/-- The welcome `emailData` for `demoUser`. -/
def demoData : EmailData := welcomeEmailData demoUser

/-- State right after one enqueue whose ledger save succeeded: one job in
the transient queue and its corresponding pending document. -/
def demoEnqueuedState : DispatcherState :=
  { queue := [mkQueuedJob demoData 10 0]
    ledger := [newLedgerRecord demoData 20 0]
    isProcessing := false }

/-- A fresh pending document at a given priority and schedule time. -/
def mkPendingRecord (p : Priority) (id sched : Nat) : LedgerRecord :=
  newLedgerRecord { demoData with priority := p } id sched

/-- Three due pending documents at priorities {low, urgent, normal}. -/
def demoUrgentLedger : List LedgerRecord :=
  [mkPendingRecord .low 1 0, mkPendingRecord .urgent 2 0,
   mkPendingRecord .normal 3 0]

/-- A document that reached `failed` with its attempts exhausted. -/
def demoExhaustedRecord : LedgerRecord :=
  { newLedgerRecord demoData 7 0 with
      status := .failed, attempts := 3,
      errorMessage := some "Simulated processing failure" }

/-- A `failed` document that is still retry-eligible (`attempts = 2 < 3`). -/
def demoFailedRecord : LedgerRecord :=
  { newLedgerRecord demoData 8 0 with
      status := .failed, attempts := 2,
      errorMessage := some "Simulated processing failure" }

/-- State holding only the retry-eligible failed document. -/
def demoRetryState : DispatcherState :=
  { queue := [], ledger := [demoFailedRecord], isProcessing := false }

/-- The queued job of `demoEnqueuedState`. -/
def demoJob : Job := mkQueuedJob demoData 10 0

/-- State holding only the exhausted failed document. -/
def demoExhaustedState : DispatcherState :=
  { queue := [], ledger := [demoExhaustedRecord], isProcessing := false }

/-- Overwrite a job's advisory priority tier (used to state that the drain
loop's behaviour is independent of it). -/
def setPriority (p : Priority) (j : Job) : Job := { j with priority := p }

/-! ### Ordering lemmas -/

/-- On the four stored priority strings, MongoDB's string order is exactly
the order of `mongoRank`: high < low < normal < urgent (lexicographic). -/
lemma mongoStrLt_iff_rank (p q : Priority) :
    mongoStrLt (priorityString p) (priorityString q) ↔
      mongoRank p < mongoRank q := by
  cases p <;> cases q <;> decide

lemma priorityString_inj (p q : Priority) :
    priorityString p = priorityString q ↔ p = q := by
  cases p <;> cases q <;> decide

lemma mongoRank_inj (p q : Priority) :
    mongoRank p = mongoRank q → p = q := by
  cases p <;> cases q <;> decide

lemma pendingOrder_iff (a b : LedgerRecord) :
    pendingOrder a b ↔
      (mongoRank b.priority < mongoRank a.priority ∨
        (a.priority = b.priority ∧ a.scheduledAt ≤ b.scheduledAt)) := by
  unfold pendingOrder
  rw [mongoStrLt_iff_rank, priorityString_inj]

instance : IsTrans LedgerRecord pendingOrder := by
  constructor
  intro a b c hab hbc
  rw [pendingOrder_iff] at hab hbc ⊢
  rcases hab with h1 | ⟨h1, h1s⟩ <;> rcases hbc with h2 | ⟨h2, h2s⟩
  · exact Or.inl (h2.trans h1)
  · exact Or.inl (h2 ▸ h1)
  · exact Or.inl (h1 ▸ h2)
  · exact Or.inr ⟨h1.trans h2, h1s.trans h2s⟩

instance : IsTotal LedgerRecord pendingOrder := by
  constructor
  intro a b
  rw [pendingOrder_iff, pendingOrder_iff]
  rcases Nat.lt_trichotomy (mongoRank a.priority) (mongoRank b.priority) with
    h | h | h
  · exact Or.inr (Or.inl h)
  · have hp : a.priority = b.priority := mongoRank_inj _ _ h
    rcases Nat.le_total a.scheduledAt b.scheduledAt with hs | hs
    · exact Or.inl (Or.inr ⟨hp, hs⟩)
    · exact Or.inr (Or.inr ⟨hp.symm, hs⟩)
  · exact Or.inl (Or.inl h)

instance : IsTrans LedgerRecord failedOrder :=
  ⟨fun _ _ _ hab hbc => Nat.le_trans hab hbc⟩

instance : IsTotal LedgerRecord failedOrder :=
  ⟨fun a b => Nat.le_total a.updatedAt b.updatedAt⟩

/-! ### Query lemmas -/

lemma mem_getPendingEmails {now limit : Nat} {ledger : List LedgerRecord}
    {r : LedgerRecord} (h : r ∈ getPendingEmails now limit ledger) :
    r ∈ ledger ∧ r.status = .pending ∧ r.scheduledAt ≤ now := by
  unfold getPendingEmails at h
  have h1 := (List.take_sublist _ _).subset h
  have h2 := (List.perm_insertionSort pendingOrder _).mem_iff.mp h1
  have h3 := List.mem_filter.mp h2
  refine ⟨h3.1, ?_, ?_⟩
  · have := h3.2
    simp only [Bool.and_eq_true, beq_iff_eq, decide_eq_true_eq] at this
    exact this.1
  · have := h3.2
    simp only [Bool.and_eq_true, beq_iff_eq, decide_eq_true_eq] at this
    exact this.2

lemma sorted_getPendingEmails (now limit : Nat) (ledger : List LedgerRecord) :
    (getPendingEmails now limit ledger).Sorted pendingOrder :=
  List.Pairwise.sublist (List.take_sublist _ _)
    (List.sorted_insertionSort pendingOrder _)

lemma length_getPendingEmails (now limit : Nat) (ledger : List LedgerRecord) :
    (getPendingEmails now limit ledger).length ≤ limit := by
  unfold getPendingEmails
  exact List.length_take_le limit _

lemma mem_getFailedEmails {limit : Nat} {ledger : List LedgerRecord}
    {r : LedgerRecord} (h : r ∈ getFailedEmails limit ledger) :
    r ∈ ledger ∧ r.status = .failed ∧ r.attempts < r.maxAttempts := by
  unfold getFailedEmails at h
  have h1 := (List.take_sublist _ _).subset h
  have h2 := (List.perm_insertionSort failedOrder _).mem_iff.mp h1
  have h3 := List.mem_filter.mp h2
  have h4 := h3.2
  simp only [Bool.and_eq_true, beq_iff_eq, decide_eq_true_eq] at h4
  exact ⟨h3.1, h4.1, h4.2⟩

lemma sorted_getFailedEmails (limit : Nat) (ledger : List LedgerRecord) :
    (getFailedEmails limit ledger).Sorted failedOrder :=
  List.Pairwise.sublist (List.take_sublist _ _)
    (List.sorted_insertionSort failedOrder _)

lemma length_getFailedEmails (limit : Nat) (ledger : List LedgerRecord) :
    (getFailedEmails limit ledger).length ≤ limit := by
  unfold getFailedEmails
  exact List.length_take_le limit _

lemma getFailedEmails_complete {limit : Nat} {ledger : List LedgerRecord}
    {r : LedgerRecord}
    (hlen : (ledger.filter fun r =>
        r.status == .failed && decide (r.attempts < r.maxAttempts)).length ≤
      limit)
    (hr : r ∈ ledger) (hst : r.status = .failed)
    (hatt : r.attempts < r.maxAttempts) :
    r ∈ getFailedEmails limit ledger := by
  unfold getFailedEmails
  rw [List.take_of_length_le]
  · exact (List.perm_insertionSort failedOrder _).mem_iff.mpr
      (List.mem_filter.mpr ⟨hr, by simp [hst, hatt]⟩)
  · rw [(List.perm_insertionSort failedOrder _).length_eq]
    exact hlen

/-! ### Drain-loop lemmas -/

lemma jobMeasure_pos (j : Job) : 1 ≤ jobMeasure j := by
  unfold jobMeasure
  omega

lemma queueMeasure_cons (j : Job) (q : List Job) :
    queueMeasure (j :: q) = jobMeasure j + queueMeasure q := by
  simp [queueMeasure]

lemma queueMeasure_append (q₁ q₂ : List Job) :
    queueMeasure (q₁ ++ q₂) = queueMeasure q₁ + queueMeasure q₂ := by
  simp [queueMeasure]

/-- Every iteration of the drain loop strictly decreases the queue measure. -/
lemma stepQueue_measure (success : Bool) (now : Nat) (j : Job)
    (rest : List Job) :
    queueMeasure (stepQueue success now (j :: rest)) + 1 ≤
      queueMeasure (j :: rest) := by
  have hpos := jobMeasure_pos j
  have hmj : jobMeasure j = j.maxAttempts - j.attempts + 1 := rfl
  cases success with
  | true =>
    rw [show stepQueue true now (j :: rest) = rest from rfl, queueMeasure_cons]
    omega
  | false =>
    rw [show stepQueue false now (j :: rest) =
        if j.attempts < j.maxAttempts then rest ++ [bumpJob j now] else rest
        from rfl]
    by_cases hatt : j.attempts < j.maxAttempts
    · rw [if_pos hatt]
      have h1 : queueMeasure (rest ++ [bumpJob j now]) =
          queueMeasure rest + jobMeasure (bumpJob j now) := by
        simp [queueMeasure]
      have h2 := queueMeasure_cons j rest
      have h3 : jobMeasure (bumpJob j now) =
          j.maxAttempts - (j.attempts + 1) + 1 := rfl
      omega
    · rw [if_neg hatt]
      have h2 := queueMeasure_cons j rest
      omega

/-- The drain loop never touches the ledger. -/
lemma drainLoop_ledger (outcomes : Nat → Bool) :
    ∀ (fuel step : Nat) (st : DispatcherState),
      (drainLoop outcomes fuel step st).ledger = st.ledger := by
  intro fuel
  induction fuel with
  | zero => intro _ _; rfl
  | succ n ih =>
    intro step st
    simp only [drainLoop]
    split
    · rfl
    · exact ih _ _

/-- `processQueue` never touches the ledger. -/
lemma processQueue_ledger (outcomes : Nat → Bool) (fuel : Nat)
    (st : DispatcherState) :
    (processQueue outcomes fuel st).ledger = st.ledger := by
  unfold processQueue
  split
  · rfl
  · exact drainLoop_ledger outcomes fuel 0 _

/-- With fuel above the queue measure, the drain loop reaches the empty
queue and resets the flag. -/
lemma drainLoop_drains (outcomes : Nat → Bool) :
    ∀ (fuel step : Nat) (st : DispatcherState),
      queueMeasure st.queue < fuel →
      (drainLoop outcomes fuel step st).queue = [] ∧
        (drainLoop outcomes fuel step st).isProcessing = false := by
  intro fuel
  induction fuel with
  | zero => intro _ _ h; omega
  | succ n ih =>
    intro step st h
    simp only [drainLoop]
    split
    · next hq => exact ⟨hq ▸ rfl, rfl⟩
    · next j rest hq =>
      apply ih
      have hm := stepQueue_measure (outcomes step) step j rest
      rw [hq] at h
      simp only [hq]
      omega

/-- `processQueue` from an idle state drains the queue, resets the flag,
and leaves the ledger alone. -/
lemma processQueue_drains (outcomes : Nat → Bool) (fuel : Nat)
    (st : DispatcherState) (hidle : st.isProcessing = false)
    (hfuel : queueMeasure st.queue < fuel) :
    (processQueue outcomes fuel st).queue = [] ∧
      (processQueue outcomes fuel st).isProcessing = false := by
  unfold processQueue
  rw [hidle]
  by_cases hq : st.queue.isEmpty
  · simp only [Bool.false_or, hq, if_true]
    exact ⟨List.isEmpty_iff.mp hq, hidle⟩
  · simp only [Bool.false_or, hq, if_false, Bool.false_eq_true]
    exact drainLoop_drains outcomes fuel 0 _ hfuel

/-! ### Guarded ledger-operation invariant -/

/-- Inductive invariant of the guarded operation sequences: attempts stay
within the bound, and a `pending` document always has at least one attempt
left (so `markAsProcessing` cannot push it past the bound). -/
lemma guardedReach_invariant {r : LedgerRecord} (h : GuardedReach r) :
    r.attempts ≤ r.maxAttempts ∧
      (r.status = .pending → r.attempts < r.maxAttempts) := by
  induction h with
  | init d id now =>
    refine ⟨?_, fun _ => ?_⟩ <;> simp [newLedgerRecord]
  | processing now _ hpend ih =>
    have hlt := ih.2 hpend
    refine ⟨?_, fun hst => ?_⟩
    · simp only [markAsProcessing]
      omega
    · simp [markAsProcessing] at hst
  | sent now _ ih =>
    refine ⟨ih.1, fun hst => ?_⟩
    simp [markAsSent] at hst
  | failedStep msg now _ ih =>
    refine ⟨ih.1, fun hst => ?_⟩
    simp [markAsFailed] at hst
  | retried now _ hok ih =>
    unfold LedgerRecord.retryRecord at hok
    split at hok
    · next hlt =>
      cases hok
      exact ⟨Nat.le_of_lt hlt, fun _ => hlt⟩
    · cases hok

/-! ### Claim theorems -/

/-- C1, counterexample: a successful drain of a single enqueued job leaves
the corresponding LedgerRecord exactly as it was — still `pending`, with
`attempts = 0` and no `sentAt` — contradicting the claim that the Drain
Loop marks it `processing`/`sent`. -/
theorem C1_counterexample :
    (processQueue (fun _ => true) 5 demoEnqueuedState).queue = [] ∧
    (processQueue (fun _ => true) 5 demoEnqueuedState).ledger =
      [newLedgerRecord demoData 20 0] ∧
    (newLedgerRecord demoData 20 0).status = .pending ∧
    (newLedgerRecord demoData 20 0).attempts = 0 ∧
    (newLedgerRecord demoData 20 0).sentAt = none := by
  decide

/-- C1 (amended): the Drain Loop performs no LedgerRecord update at all —
a drain run leaves the ledger identically unchanged; the
processing-then-sent marking (with the attempts increment and `sentAt`)
is done only by the Batch Reconciler's per-record resolution. -/
theorem C1_amended :
    (∀ (outcomes : Nat → Bool) (fuel : Nat) (st : DispatcherState),
      (processQueue outcomes fuel st).ledger = st.ledger) ∧
    (∀ (r : LedgerRecord) (now : Nat),
      (markAsProcessing r now).status = .processing ∧
      (markAsProcessing r now).attempts = r.attempts + 1 ∧
      (reconcileOne true now r).status = .sent ∧
      (reconcileOne true now r).sentAt = some now ∧
      (reconcileOne true now r).attempts = r.attempts + 1) :=
  ⟨processQueue_ledger, fun _ _ => ⟨rfl, rfl, rfl, rfl, rfl⟩⟩

/-- C2, counterexample: a job that fails on every simulated delivery until
its attempts are exhausted disappears from the Transient Queue, but its
LedgerRecord is not marked `failed` and gets no error message — the drain
loop leaves the ledger untouched. -/
theorem C2_counterexample :
    (processQueue (fun _ => false) 10 demoEnqueuedState).queue = [] ∧
    (processQueue (fun _ => false) 10 demoEnqueuedState).ledger =
      [newLedgerRecord demoData 20 0] ∧
    (newLedgerRecord demoData 20 0).status ≠ .failed ∧
    (newLedgerRecord demoData 20 0).errorMessage = none := by
  decide

/-- C2 (amended): when deliveries keep failing, the drain loop drops every
job after its attempts are exhausted — the queue ends empty, so no job is
re-appended — but the LedgerRecords are left unchanged (no `failed`
status, no error message is written by the Drain Loop). -/
theorem C2_amended (st : DispatcherState) (hidle : st.isProcessing = false)
    (fuel : Nat) (hfuel : queueMeasure st.queue < fuel) :
    (processQueue (fun _ => false) fuel st).queue = [] ∧
    (processQueue (fun _ => false) fuel st).ledger = st.ledger :=
  ⟨(processQueue_drains _ fuel st hidle hfuel).1,
   processQueue_ledger _ fuel st⟩

/-- C2, witness: the amended statement evaluated on the concrete
one-job state. -/
theorem C2_witness :
    (processQueue (fun _ => false) 10 demoEnqueuedState).queue = [] ∧
    (processQueue (fun _ => false) 10 demoEnqueuedState).ledger =
      demoEnqueuedState.ledger :=
  C2_amended demoEnqueuedState rfl 10 (by decide)

/-- C3, counterexample: with two due pending records at priorities `high`
and `low`, the Batch Reconciler's source query returns the `low` record
FIRST: the Mongo sort is on the priority *string* descending, and
lexicographically `"low" > "high"`, so the claimed order
urgent > high > normal > low does not hold. -/
theorem C3_counterexample :
    (mkPendingRecord .high 1 0).status = .pending ∧
    (mkPendingRecord .low 2 0).status = .pending ∧
    (mkPendingRecord .high 1 0).priority = .high ∧
    (mkPendingRecord .low 2 0).priority = .low ∧
    getPendingEmails 10 2
        [mkPendingRecord .high 1 0, mkPendingRecord .low 2 0] =
      [mkPendingRecord .low 2 0, mkPendingRecord .high 1 0] := by
  decide

/-- C3 (amended): the Batch Reconciler selects up to `n` pending, due
records, sorted by the stored priority string descending then scheduledAt
ascending; string-descending order is urgent > normal > low > high
(`mongoRank`), not the semantic tier order.  The claim's concrete scenario
still holds: with pending records at {low, urgent, normal} and batch size
2, the urgent record (id 2) is resolved first. -/
theorem C3_amended :
    (∀ (now limit : Nat) (ledger : List LedgerRecord),
      (getPendingEmails now limit ledger).length ≤ limit ∧
      (getPendingEmails now limit ledger).Sorted pendingOrder ∧
      ∀ r ∈ getPendingEmails now limit ledger,
        r ∈ ledger ∧ r.status = .pending ∧ r.scheduledAt ≤ now) ∧
    (∀ p q : Priority,
      mongoStrLt (priorityString p) (priorityString q) ↔
        mongoRank p < mongoRank q) ∧
    simulateEmailProcessing (fun _ => true) 10 2 demoUrgentLedger =
      [(2, .sent), (3, .sent)] ∧
    (mkPendingRecord .urgent 2 0).id = 2 ∧
    (mkPendingRecord .urgent 2 0).priority = .urgent := by
  refine ⟨fun now limit ledger =>
      ⟨length_getPendingEmails now limit ledger,
       sorted_getPendingEmails now limit ledger,
       fun _ hr => mem_getPendingEmails hr⟩,
    mongoStrLt_iff_rank, by decide, rfl, rfl⟩

/-- C3, witness: the selection facts instantiated on the scenario's urgent
record. -/
theorem C3_witness :
    mkPendingRecord .urgent 2 0 ∈ demoUrgentLedger ∧
    (mkPendingRecord .urgent 2 0).status = .pending ∧
    (mkPendingRecord .urgent 2 0).scheduledAt ≤ 10 :=
  (C3_amended.1 10 2 demoUrgentLedger).2.2
    (mkPendingRecord .urgent 2 0) (by decide)

/-- C4: for a record that is found, `retryFailedEmail` fails with the
retry-not-eligible error exactly when the record is not `failed` or its
attempts are exhausted, and on that failure the dispatcher state (ledger
and queue) is completely unchanged. -/
theorem C4_theorem (st : DispatcherState) (emailId now jobId : Nat)
    (r : LedgerRecord) (hfind : findById st.ledger emailId = some r) :
    ((retryFailedEmail st emailId now jobId).1 =
        .error "Email cannot be retried" ↔
      (r.status ≠ .failed ∨ r.maxAttempts ≤ r.attempts)) ∧
    ((r.status ≠ .failed ∨ r.maxAttempts ≤ r.attempts) →
      (retryFailedEmail st emailId now jobId).2 = st) := by
  unfold retryFailedEmail
  simp only [hfind]
  by_cases hc : canRetry r = true
  · have hc' : r.status = .failed ∧ r.attempts < r.maxAttempts := by
      simpa [canRetry] using hc
    simp only [hc, if_true]
    unfold LedgerRecord.retryRecord
    rw [if_pos hc'.2]
    constructor
    · constructor
      · intro h
        exact absurd h (by simp)
      · intro h
        rcases h with h | h
        · exact absurd hc'.1 h
        · omega
    · intro h
      rcases h with h | h
      · exact absurd hc'.1 h
      · omega
  · have hc' : ¬(r.status = .failed ∧ r.attempts < r.maxAttempts) := by
      simpa [canRetry] using hc
    simp only [hc, if_false, Bool.false_eq_true]
    constructor
    · constructor
      · intro _
        by_cases hs : r.status = .failed
        · right
          by_contra hle
          exact hc' ⟨hs, by omega⟩
        · exact Or.inl hs
      · intro _
        trivial
    · intro _
      trivial

/-- C4, witness: the theorem evaluated on the exhausted failed record. -/
theorem C4_witness :
    ((retryFailedEmail demoExhaustedState 7 5 11).1 =
        .error "Email cannot be retried" ↔
      (demoExhaustedRecord.status ≠ .failed ∨
        demoExhaustedRecord.maxAttempts ≤ demoExhaustedRecord.attempts)) ∧
    ((demoExhaustedRecord.status ≠ .failed ∨
        demoExhaustedRecord.maxAttempts ≤ demoExhaustedRecord.attempts) →
      (retryFailedEmail demoExhaustedState 7 5 11).2 = demoExhaustedState) :=
  C4_theorem demoExhaustedState 7 5 11 demoExhaustedRecord (by decide)

/-- C5, counterexample: `markAsProcessing` increments `attempts` with no
guard, so the sequence of four `markAsProcessing` calls drives a fresh
record (maxAttempts = 3) to `attempts = 4`, violating the claimed
invariant. -/
theorem C5_counterexample :
    (List.foldl applyOp (newLedgerRecord demoData 0 0)
        [.markProcessing 1, .markProcessing 2, .markProcessing 3,
          .markProcessing 4]).attempts = 4 ∧
    (List.foldl applyOp (newLedgerRecord demoData 0 0)
        [.markProcessing 1, .markProcessing 2, .markProcessing 3,
          .markProcessing 4]).maxAttempts = 3 := by
  decide

/-- C5 (amended): `attempts ≤ maxAttempts` does hold in every state
reachable from creation when `markAsProcessing` is only applied to
`pending` records — which is the only way the code calls it (the Batch
Reconciler invokes it on `getPendingEmails` results). -/
theorem C5_amended (r : LedgerRecord) (h : GuardedReach r) :
    r.attempts ≤ r.maxAttempts :=
  (guardedReach_invariant h).1

/-- C5, witness: the bound at a freshly created record. -/
theorem C5_witness :
    (newLedgerRecord demoData 0 0).attempts ≤
      (newLedgerRecord demoData 0 0).maxAttempts :=
  C5_amended (newLedgerRecord demoData 0 0) (GuardedReach.init demoData 0 0)

/-- C6, counterexample: a `failed` record whose attempts are exhausted
(`attempts = maxAttempts = 3`) is NOT returned by `getFailedEmails` —
the query filters `attempts < maxAttempts`, the opposite of the claim. -/
theorem C6_counterexample :
    demoExhaustedRecord.status = .failed ∧
    demoExhaustedRecord.maxAttempts ≤ demoExhaustedRecord.attempts ∧
    getFailedEmails 5 [demoExhaustedRecord] = [] := by
  decide

/-- C6 (amended): `getFailedEmails` returns exactly the `failed` records
that are still retry-eligible (`attempts < maxAttempts`), up to the limit,
ordered oldest-updated first; records that exhausted their attempts are
never returned. -/
theorem C6_amended :
    (∀ (limit : Nat) (ledger : List LedgerRecord),
      (getFailedEmails limit ledger).length ≤ limit ∧
      (getFailedEmails limit ledger).Sorted failedOrder ∧
      ∀ r ∈ getFailedEmails limit ledger,
        r ∈ ledger ∧ r.status = .failed ∧ r.attempts < r.maxAttempts) ∧
    (∀ (limit : Nat) (ledger : List LedgerRecord) (r : LedgerRecord),
      (ledger.filter fun s =>
          s.status == .failed && decide (s.attempts < s.maxAttempts)).length ≤
        limit →
      r ∈ ledger → r.status = .failed → r.attempts < r.maxAttempts →
      r ∈ getFailedEmails limit ledger) ∧
    (∀ (limit : Nat) (ledger : List LedgerRecord) (r : LedgerRecord),
      r.status = .failed → r.maxAttempts ≤ r.attempts →
      r ∉ getFailedEmails limit ledger) := by
  refine ⟨fun limit ledger =>
      ⟨length_getFailedEmails limit ledger,
       sorted_getFailedEmails limit ledger,
       fun _ hr => mem_getFailedEmails hr⟩,
    fun _ _ _ hlen hr hst hatt => getFailedEmails_complete hlen hr hst hatt,
    fun _ _ r hst hex hmem => ?_⟩
  have := (mem_getFailedEmails hmem).2.2
  omega

/-- C6, witness: the retry-eligible failed record is listed. -/
theorem C6_witness :
    demoFailedRecord ∈ getFailedEmails 5 [demoFailedRecord] :=
  C6_amended.2.1 5 [demoFailedRecord] demoFailedRecord
    (by decide) (by decide) (by decide) (by decide)

/-- C7: every enqueue through `sendWelcomeEmail` returns normally (never
an error), appends exactly one job to the tail of the Transient Queue, and
when the ledger save fails the ledger is unchanged while the job is still
in the queue. -/
theorem C7_theorem (u : UserInfo) (saveFails : Bool) (jobId recId now : Nat)
    (st : DispatcherState) :
    ∃ st' : DispatcherState,
      sendWelcomeEmail u saveFails jobId recId now st = .ok st' ∧
      st'.queue = st.queue ++ [mkQueuedJob (welcomeEmailData u) jobId now] ∧
      st'.queue.length = st.queue.length + 1 ∧
      (saveFails = true → st'.ledger = st.ledger) := by
  unfold sendWelcomeEmail saveEmail
  cases saveFails with
  | false =>
    refine ⟨_, rfl, rfl, ?_, fun h => by cases h⟩
    simp [addToQueue]
  | true =>
    refine ⟨_, rfl, rfl, ?_, fun _ => rfl⟩
    simp [addToQueue]

/-- C7, witness: the statement at a concrete user, failing save, and empty
initial state. -/
theorem C7_witness :
    ∃ st' : DispatcherState,
      sendWelcomeEmail demoUser true 10 20 0 ⟨[], [], false⟩ = .ok st' ∧
      st'.queue = [] ++ [mkQueuedJob (welcomeEmailData demoUser) 10 0] ∧
      st'.queue.length = ([] : List Job).length + 1 ∧
      (true = true → st'.ledger = ([] : List LedgerRecord)) :=
  C7_theorem demoUser true 10 20 0 ⟨[], [], false⟩

/-- C8: the drain step is strict FIFO — it always removes the head; a
failing job with attempts left is re-appended at the tail (behind every
job already in the queue); and the step is completely independent of the
jobs' priority tiers (overwriting every priority commutes with the step). -/
theorem C8_theorem (j : Job) (rest : List Job) (now : Nat) :
    stepQueue true now (j :: rest) = rest ∧
    (j.attempts < j.maxAttempts →
      stepQueue false now (j :: rest) = rest ++ [bumpJob j now]) ∧
    (∀ (success : Bool) (p : Priority) (q : List Job),
      stepQueue success now (q.map (setPriority p)) =
        (stepQueue success now q).map (setPriority p)) := by
  refine ⟨rfl, fun h => ?_, ?_⟩
  · rw [show stepQueue false now (j :: rest) =
        if j.attempts < j.maxAttempts then rest ++ [bumpJob j now] else rest
        from rfl, if_pos h]
  · intro success p q
    cases q with
    | nil => rfl
    | cons k ks =>
      cases success with
      | true => rfl
      | false =>
        by_cases h : k.attempts < k.maxAttempts
        · rw [show stepQueue false now ((k :: ks).map (setPriority p)) =
              if k.attempts < k.maxAttempts then
                ks.map (setPriority p) ++ [bumpJob (setPriority p k) now]
              else ks.map (setPriority p) from rfl,
            if_pos h,
            show stepQueue false now (k :: ks) =
              if k.attempts < k.maxAttempts then ks ++ [bumpJob k now]
              else ks from rfl,
            if_pos h]
          simp [bumpJob, setPriority]
        · rw [show stepQueue false now ((k :: ks).map (setPriority p)) =
              if k.attempts < k.maxAttempts then
                ks.map (setPriority p) ++ [bumpJob (setPriority p k) now]
              else ks.map (setPriority p) from rfl,
            if_neg h,
            show stepQueue false now (k :: ks) =
              if k.attempts < k.maxAttempts then ks ++ [bumpJob k now]
              else ks from rfl,
            if_neg h]

/-- C8, witness: the failure-requeue case on the concrete job. -/
theorem C8_witness :
    stepQueue false 5 (demoJob :: []) = [] ++ [bumpJob demoJob 5] :=
  (C8_theorem demoJob [] 5).2.1 (by decide)

/-- C9: a single drain run from an idle state terminates: any fuel above
the queue measure (each job can be handed to delivery at most
`maxAttempts - attempts + 1` times) empties the Transient Queue and
returns the processing flag to idle. -/
theorem C9_theorem (outcomes : Nat → Bool) (st : DispatcherState)
    (hidle : st.isProcessing = false)
    (_hbudget : ∀ j ∈ st.queue, j.attempts ≤ j.maxAttempts)
    (fuel : Nat) (hfuel : queueMeasure st.queue < fuel) :
    (processQueue outcomes fuel st).queue = [] ∧
    (processQueue outcomes fuel st).isProcessing = false :=
  processQueue_drains outcomes fuel st hidle hfuel

/-- C9, witness: termination on the concrete one-job state under an
all-failure oracle. -/
theorem C9_witness :
    (processQueue (fun _ => false) 5 demoEnqueuedState).queue = [] ∧
    (processQueue (fun _ => false) 5 demoEnqueuedState).isProcessing =
      false :=
  C9_theorem (fun _ => false) demoEnqueuedState rfl (by decide) 5 (by decide)

/-- C10: `addToQueue` always gives the pushed job `attempts = 0` and
`maxAttempts = 3`, whatever the submitted data carried; the Retry action
re-enqueues a job with this fresh in-memory budget while the persisted
record keeps its `attempts` (here 2 of 3); and a single in-memory job
already receives 4 simulated deliveries under constant failure —
exceeding its own `maxAttempts = 3` — so retries push the total past the
record's budget. -/
theorem C10_theorem :
    (∀ (d : EmailData) (id addedAt : Nat),
      (mkQueuedJob d id addedAt).attempts = 0 ∧
      (mkQueuedJob d id addedAt).maxAttempts = 3) ∧
    ((retryFailedEmail demoRetryState 8 5 11).2.queue =
        [mkQueuedJob (emailDataOf demoFailedRecord) 11 5] ∧
      (∃ r', findById (retryFailedEmail demoRetryState 8 5 11).2.ledger 8 =
          some r' ∧ r'.attempts = demoFailedRecord.attempts) ∧
      demoFailedRecord.attempts = 2 ∧ demoFailedRecord.maxAttempts = 3) ∧
    (drainDeliveries (fun _ => false) 10 0 [demoJob] = 4 ∧
      demoJob.maxAttempts = 3) := by
  refine ⟨fun d id t => ⟨rfl, rfl⟩,
    ⟨by decide,
     ⟨{ demoFailedRecord with
          status := .pending, processedAt := none, sentAt := none,
          errorMessage := none, updatedAt := 5 },
      by decide, by decide⟩,
     rfl, rfl⟩,
    by decide, rfl⟩

end EmailDispatcher
